import Mathlib

/-!
# Verification of the symbol-smart-contracts transaction protocol

A shallow embedding of the `symbol-smart-contracts` repository's core:
the `TransactionBroadcaster` announce / announcePartial / announceCosignature
flows, the `TransactionFactory` builders, the `ContractConstants`, and the
`RequestAsset` contract's hash-lock configuration.

The broadcaster flows are embedded as functions from the inputs and the
serialized stream of listener events to an interleaved trace of consumed
events and performed actions (`List Item`).  Actions cover everything the
code does against the outside world: opening the listener web socket,
submitting transactions over `TransactionHttp`, issuing the per-channel
subscriptions of the `Listener`, console output, and `process.exit`.
`process.exit` terminates the run, so no items follow an `exitWith` action.

Event-dispatch semantics mirror the `nem2-sdk` `Listener` used by the code:
* `status(address)` delivers every status error observed for that address
  (no transaction-hash filter);
* `confirmed(address, hash)` delivers confirmations for that address
  filtered to the given transaction hash;
* `aggregateBondedAdded(address, hash)` likewise filters by hash;
* `cosignatureAdded(address)` delivers every cosignature for the address.
A channel only delivers once its observable has been subscribed; rxjs
subscriptions stay active after their first emission, so a handler can fire
on several matching events.  When one event matches several live handlers,
the handlers fire in subscription order.

Impure primitives are made explicit arguments: the success of each HTTP
submission is a `Bool` parameter, `Deadline.create`'s clock reading is a
`now : Nat` parameter, and `MosaicNonce.createRandom()`'s draw is an
explicit `nonce : Nat` argument (with a draw sequence `Nat → Nat` when two
successive calls are compared).
-/

namespace SymbolContracts

/-- An event delivered on one of the listener channels for some address.
`statusError` carries the failing transaction's hash and its status code. -/
inductive Event where
  | confirmed (addr : String) (hash : String)
  | statusError (addr : String) (hash : String) (code : String)
  | aggregateBondedAdded (addr : String) (hash : String)
  | cosignatureAdded (addr : String) (parentHash : String)
  deriving DecidableEq

/-- An externally visible action performed by a broadcaster flow. -/
inductive Action where
  | openListener
  | submitTx (hash : String)
  | submitAggregateBonded (hash : String)
  | submitCosignature (parentHash : String)
  | subscribeStatus (addr : String)
  | subscribeConfirmed (addr : String) (hash : String)
  | subscribeAggregateBondedAdded (addr : String) (hash : String)
  | subscribeCosignatureAdded (addr : String)
  | logError (code : String) (hash : String)
  | logSuccess (hash : String)
  | logPartialSuccess
  | logCosigSuccess (parentHash : String)
  | logContractError
  | exitWith (code : Nat)
  deriving DecidableEq

/-- One element of a run trace: either a consumed listener event or a
performed action.  Actions triggered by an event follow its `ev` item. -/
inductive Item where
  | ev (e : Event)
  | act (a : Action)
  deriving DecidableEq

namespace TransactionBroadcaster

/-- Event dispatch of `announce` after the transaction was submitted.
Live handlers: `status(account.address)` (exit 1 on any status error for
the address) and `confirmed(account.address, signedTransaction.hash)`
(success message and exit 0). -/
def processAnnounce (addr txHash : String) : List Event → List Item
  | [] => []
  | e :: rest =>
    Item.ev e ::
    (match e with
     | Event.statusError a h code =>
       if a = addr then
         [Item.act (Action.logError code h), Item.act (Action.exitWith 1)]
       else processAnnounce addr txHash rest
     | Event.confirmed a h =>
       if a = addr ∧ h = txHash then
         [Item.act (Action.logSuccess txHash), Item.act (Action.exitWith 0)]
       else processAnnounce addr txHash rest
     | _ => processAnnounce addr txHash rest)

/-- `TransactionBroadcaster.announce(account, signedTransaction)`:
open the listener, submit the transaction (`contract.error` and exit 1 on
submission failure), then subscribe the status and confirmed channels and
dispatch events. -/
def announceRun (addr txHash : String) (submitOk : Bool)
    (events : List Event) : List Item :=
  Item.act Action.openListener ::
  Item.act (Action.submitTx txHash) ::
  if submitOk then
    Item.act (Action.subscribeStatus addr) ::
    Item.act (Action.subscribeConfirmed addr txHash) ::
    processAnnounce addr txHash events
  else
    [Item.act Action.logContractError, Item.act (Action.exitWith 1)]

/-- Event dispatch of `announcePartial` after the hash lock was submitted.
`k` counts how many times the lock-confirmation callback has completed,
i.e. how many copies of the bonded-phase handlers are live.  Handlers in
subscription order: `status(addr)`; `confirmed(addr, lockHash)` (announce
the bonded aggregate, then subscribe `aggregateBondedAdded(addr, bondedHash)`,
`cosignatureAdded(addr)` and `confirmed(addr, bondedHash)`); then the `k`
bonded-phase copies.  A failing bonded submission runs `contract.error`. -/
def processPartialEvents (addr lockHash bondedHash : String) (bondedOk : Bool)
    (k : Nat) : List Event → List Item
  | [] => []
  | e :: rest =>
    Item.ev e ::
    (match e with
     | Event.statusError a h code =>
       if a = addr then
         [Item.act (Action.logError code h), Item.act (Action.exitWith 1)]
       else processPartialEvents addr lockHash bondedHash bondedOk k rest
     | Event.confirmed a h =>
       if a = addr ∧ h = lockHash then
         Item.act (Action.submitAggregateBonded bondedHash) ::
         (if bondedOk then
           Item.act (Action.subscribeAggregateBondedAdded addr bondedHash) ::
           Item.act (Action.subscribeCosignatureAdded addr) ::
           Item.act (Action.subscribeConfirmed addr bondedHash) ::
           (if h = bondedHash ∧ 1 ≤ k then
             [Item.act (Action.logSuccess bondedHash), Item.act (Action.exitWith 0)]
           else processPartialEvents addr lockHash bondedHash bondedOk (k + 1) rest)
         else
           [Item.act Action.logContractError, Item.act (Action.exitWith 1)])
       else if a = addr ∧ h = bondedHash ∧ 1 ≤ k then
         [Item.act (Action.logSuccess bondedHash), Item.act (Action.exitWith 0)]
       else processPartialEvents addr lockHash bondedHash bondedOk k rest
     | Event.aggregateBondedAdded a h =>
       (if a = addr ∧ h = bondedHash then
         List.replicate k (Item.act Action.logPartialSuccess)
       else []) ++ processPartialEvents addr lockHash bondedHash bondedOk k rest
     | Event.cosignatureAdded a ph =>
       (if a = addr then
         List.replicate k (Item.act (Action.logCosigSuccess ph))
       else []) ++ processPartialEvents addr lockHash bondedHash bondedOk k rest)

/-- `TransactionBroadcaster.announcePartial(account, signedHashLock,
signedPartial)`: open the listener, submit the hash lock (`contract.error`
and exit 1 on submission failure), subscribe the status channel and the
confirmed channel for the lock's hash, and dispatch events with no
bonded-phase handlers live yet. -/
def announcePartialRun (addr lockHash bondedHash : String)
    (lockOk bondedOk : Bool) (events : List Event) : List Item :=
  Item.act Action.openListener ::
  Item.act (Action.submitTx lockHash) ::
  if lockOk then
    Item.act (Action.subscribeStatus addr) ::
    Item.act (Action.subscribeConfirmed addr lockHash) ::
    processPartialEvents addr lockHash bondedHash bondedOk 0 events
  else
    [Item.act Action.logContractError, Item.act (Action.exitWith 1)]

/-- Event dispatch of `announceCosignature` after the cosignature was
submitted.  Live handlers: `status(addr)` (exit 1) and
`cosignatureAdded(addr)` (success messages and exit 0). -/
def processCosignatureEvents (addr : String) : List Event → List Item
  | [] => []
  | e :: rest =>
    Item.ev e ::
    (match e with
     | Event.statusError a h code =>
       if a = addr then
         [Item.act (Action.logError code h), Item.act (Action.exitWith 1)]
       else processCosignatureEvents addr rest
     | Event.cosignatureAdded a ph =>
       if a = addr then
         [Item.act (Action.logCosigSuccess ph), Item.act Action.logPartialSuccess,
          Item.act (Action.exitWith 0)]
       else processCosignatureEvents addr rest
     | _ => processCosignatureEvents addr rest)

/-- `TransactionBroadcaster.announceCosignature(account, signedCosignature)`:
open the listener, submit the cosignature over
`announceAggregateBondedCosignature` (`contract.error` and exit 1 on
submission failure), then subscribe the status and cosignatureAdded
channels and dispatch events. -/
def announceCosignatureRun (addr parentHash : String) (submitOk : Bool)
    (events : List Event) : List Item :=
  Item.act Action.openListener ::
  Item.act (Action.submitCosignature parentHash) ::
  if submitOk then
    Item.act (Action.subscribeStatus addr) ::
    Item.act (Action.subscribeCosignatureAdded addr) ::
    processCosignatureEvents addr events
  else
    [Item.act Action.logContractError, Item.act (Action.exitWith 1)]

end TransactionBroadcaster

/-! ## Predicates over trace items used by the statements -/

/-- The exit code carried by an item, when it is a `process.exit` action. -/
def exitActionCode : Item → Option Nat
  | Item.act (Action.exitWith c) => some c
  | _ => none

/-- The code of the first `process.exit` action of a trace, if any. -/
def exitCodeOf (tr : List Item) : Option Nat :=
  tr.findSome? exitActionCode

/-- Actions that submit something to the node over `TransactionHttp`. -/
def isSubmitAction : Action → Bool
  | Action.submitTx _ => true
  | Action.submitAggregateBonded _ => true
  | Action.submitCosignature _ => true
  | _ => false

/-- Actions that subscribe one of the listener's per-address channels. -/
def isSubscribeAction : Action → Bool
  | Action.subscribeStatus _ => true
  | Action.subscribeConfirmed _ _ => true
  | Action.subscribeAggregateBondedAdded _ _ => true
  | Action.subscribeCosignatureAdded _ => true
  | _ => false

/-- Trace item that submits a transaction to the node. -/
def isSubmitItem : Item → Bool
  | Item.act a => isSubmitAction a
  | _ => false

/-- Trace item that subscribes a listener channel. -/
def isSubscribeItem : Item → Bool
  | Item.act a => isSubscribeAction a
  | _ => false

/-- Scans a trace and checks that every bonded-aggregate submission is
strictly preceded by a consumed confirmation event for the hash lock.
`seen` records whether such a confirmation was already consumed. -/
def checkLockBeforeBonded (addr lockHash : String) :
    Bool → List Item → Bool
  | _, [] => true
  | seen, Item.ev e :: rest =>
    checkLockBeforeBonded addr lockHash
      (seen || decide (e = Event.confirmed addr lockHash)) rest
  | seen, Item.act (Action.submitAggregateBonded _) :: rest =>
    seen && checkLockBeforeBonded addr lockHash seen rest
  | seen, Item.act _ :: rest => checkLockBeforeBonded addr lockHash seen rest

/-- Checks that every bonded-aggregate submission in the trace is followed
by exactly the failure report of `contract.error` and `process.exit(1)`,
with nothing after (used for the failing-bonded-submission case). -/
def submitBondedAborts : List Item → Bool
  | [] => true
  | Item.act (Action.submitAggregateBonded _) :: rest =>
    decide (rest = [Item.act Action.logContractError, Item.act (Action.exitWith 1)])
  | _ :: rest => submitBondedAborts rest

/-- Events that the `announcePartial` bonded phase treats as informational
only: "partial added" and "cosignature added" notifications. -/
def isInformationalEvent : Event → Bool
  | Event.aggregateBondedAdded _ _ => true
  | Event.cosignatureAdded _ _ => true
  | _ => false

/-- The confirmation event that `announce` treats as terminal success. -/
def announceSuccessEvent (addr txHash : String) : Event → Bool
  | Event.confirmed a h => decide (a = addr ∧ h = txHash)
  | _ => false

/-- A status error delivered for the given address (any hash). -/
def statusErrorEventFor (addr : String) : Event → Bool
  | Event.statusError a _ _ => decide (a = addr)
  | _ => false

/-- A cosignature-added event delivered for the given address. -/
def cosigAddedEventFor (addr : String) : Event → Bool
  | Event.cosignatureAdded a _ => decide (a = addr)
  | _ => false

/-- The hash lock's confirmation event. -/
def lockConfEventFor (addr lockHash : String) (e : Event) : Bool :=
  decide (e = Event.confirmed addr lockHash)

/-- The empty event class. -/
def noEvent : Event → Bool := fun _ => false

/-- Scans a trace and checks that every `process.exit` code matches its
trigger: code 0 only right after a `success` event was consumed, code 1
only right after a `failure` or `subFail` event, or with no event consumed
at all (initial submission failure).  `le` is the last consumed event. -/
def exitJustification (success failure subFail : Event → Bool) :
    Option Event → List Item → Bool
  | _, [] => true
  | _, Item.ev e :: rest => exitJustification success failure subFail (some e) rest
  | le, Item.act (Action.exitWith c) :: rest =>
    (match le with
     | none => decide (c = 1)
     | some e =>
       (success e && decide (c = 0)) ||
       ((failure e || subFail e) && decide (c = 1))) &&
    exitJustification success failure subFail le rest
  | le, Item.act _ :: rest => exitJustification success failure subFail le rest

/-- The first subscribe action of the trace comes strictly before its first
submission to the node. -/
def subscribesBeforeFirstSubmit (tr : List Item) : Prop :=
  ∀ i j, tr.findIdx? isSubscribeItem = some i →
    tr.findIdx? isSubmitItem = some j → i < j

/-! ## ContractConstants (src kernel `Contract.ts`) -/

namespace ContractConstants

/-- Block target in seconds. -/
def BLOCK_TARGET_SECONDS : Nat := 15

/-- Approximate number of blocks produced in one year. -/
def BLOCKS_IN_ONE_YEAR : Nat := 365 * 24 * 60 * 60 / BLOCK_TARGET_SECONDS

/-- Default fee to use for aggregate transactions. -/
def DEFAULT_AGGREGATE_FEE : Nat := 100000

/-- Default fee to use for normal transactions. -/
def DEFAULT_TRANSACTION_FEE : Nat := 30000

/-- Default fee for transactions with rental fee. -/
def DEFAULT_FEE_WITH_RENTAL : Nat := 1 * BLOCKS_IN_ONE_YEAR

/-- Default API node URL. -/
def DEFAULT_NODE_URL : String :=
  "http://api-01.us-west-1.0941-v1.symboldev.network:3000"

/-- Default explorer URL. -/
def DEFAULT_EXPLORER_URL : String := "http://explorer-941.symboldev.network"

/-- Default locked mosaic (hash lock). -/
def LOCK_MOSAIC : String := "519FC24B9223E0B4"

/-- Default locked mosaic amount (hash lock). -/
def LOCK_AMOUNT : Nat := 10000000

end ContractConstants

/-! ## SDK value objects consumed by the factory (shallow embedding)

Network types are the SDK's numeric enum (`TEST_NET = 152`).  `UInt64`
amounts are `Nat`.  `Deadline.create(epochAdjustment)` reads the system
clock, made explicit as `now`. -/

/-- A transaction deadline: the epoch adjustment given to `Deadline.create`
together with the clock reading at the moment of the call. -/
structure Deadline where
  epochAdjustment : Nat
  createdAt : Nat
  deriving DecidableEq

/-- `Deadline.create(epochAdjustment)` at clock reading `now`. -/
def Deadline.create (epochAdjustment : Nat) (now : Nat) : Deadline :=
  ⟨epochAdjustment, now⟩

/-- A public account: public key and derived address. -/
structure PublicAccount where
  publicKey : String
  address : String
  deriving DecidableEq

/-- A mosaic id: derived from a nonce and an owner address
(`MosaicId.createFromNonce`, a collision-free hash, embedded as the
injective pairing of its inputs), or given as a raw hexadecimal id. -/
inductive MosaicId where
  | fromNonce (nonce : Nat) (ownerAddress : String)
  | fromHex (hex : String)
  deriving DecidableEq

/-- `MosaicId.createFromNonce(nonce, ownerAddress)`. -/
def MosaicId.createFromNonce (nonce : Nat) (ownerAddress : String) : MosaicId :=
  MosaicId.fromNonce nonce ownerAddress

/-- An asset reference: a concrete mosaic id or a namespace id (kept as the
namespace's name). -/
inductive AssetRef where
  | mosaicRef (id : MosaicId)
  | namespaceRef (name : String)
  deriving DecidableEq

/-- A mosaic: an asset reference and an absolute amount. -/
structure Mosaic where
  id : AssetRef
  amount : Nat
  deriving DecidableEq

/-- `MosaicFlags.create(supplyMutable, transferable, restrictable)`. -/
structure MosaicFlags where
  supplyMutable : Bool
  transferable : Bool
  restrictable : Bool
  deriving DecidableEq

/-- A signed transaction: serialized payload and content hash. -/
structure SignedTransaction where
  payload : String
  hash : String
  deriving DecidableEq

/-- Namespace registration: root (with a rental duration) or sub namespace
(child name under a parent). -/
inductive NamespaceRegistrationTransaction where
  | root (deadline : Deadline) (namespaceName : String) (duration : Nat)
      (networkType : Nat) (maxFee : Nat)
  | sub (deadline : Deadline) (current : String) (parent : String)
      (networkType : Nat) (maxFee : Nat)
  deriving DecidableEq

/-- `MosaicDefinitionTransaction.create(...)`. -/
structure MosaicDefinitionTransaction where
  deadline : Deadline
  nonce : Nat
  mosaicId : MosaicId
  flags : MosaicFlags
  divisibility : Nat
  duration : Nat
  networkType : Nat
  maxFee : Nat
  deriving DecidableEq

/-- `MosaicSupplyChangeTransaction.create(...)` with the `Increase` action
encoded by `increase = true`. -/
structure MosaicSupplyChangeTransaction where
  deadline : Deadline
  mosaicId : MosaicId
  increase : Bool
  delta : Nat
  networkType : Nat
  maxFee : Nat
  deriving DecidableEq

/-- `MosaicAliasTransaction.create(...)` with the `Link` action encoded by
`link = true`. -/
structure MosaicAliasTransaction where
  deadline : Deadline
  link : Bool
  namespaceName : String
  mosaicId : MosaicId
  networkType : Nat
  maxFee : Nat
  deriving DecidableEq

/-- `TransferTransaction.create(...)` with a plain message. -/
structure TransferTransaction where
  deadline : Deadline
  recipient : String
  mosaics : List Mosaic
  message : String
  networkType : Nat
  maxFee : Nat
  deriving DecidableEq

/-- `HashLockTransaction.create(...)`: deposits `mosaic` for `duration`
blocks against the referenced signed aggregate's hash. -/
structure HashLockTransaction where
  deadline : Deadline
  mosaic : Mosaic
  duration : Nat
  aggregateHash : String
  networkType : Nat
  maxFee : Nat
  deriving DecidableEq

/-! ## TransactionFactory -/

/-- The transaction factory: API node URL, network type and epoch
adjustment (the private constructor's default epoch adjustment is
`1615853185`). -/
structure TransactionFactory where
  endpointUrl : String
  networkType : Nat
  epochAdjustment : Nat
  deriving DecidableEq

namespace TransactionFactory

/-- `TransactionFactory.create(endpointUrl, networkType)` over the static
singleton slot `$_factory` (the `Option TransactionFactory` state, `none`
before the first call): a new instance is constructed and stored only when
the slot is empty, otherwise the stored instance is returned and the
arguments are ignored. -/
def create (state : Option TransactionFactory) (endpointUrl : String)
    (networkType : Nat) : TransactionFactory × Option TransactionFactory :=
  match state with
  | none =>
    let fac : TransactionFactory := ⟨endpointUrl, networkType, 1615853185⟩
    (fac, some fac)
  | some fac => (fac, some fac)

/-- The factory instances returned by a sequence of
`TransactionFactory.create` calls, threading the singleton slot. -/
def createSequence (state : Option TransactionFactory) :
    List (String × Nat) → List TransactionFactory
  | [] => []
  | (u, n) :: rest =>
    let r := create state u n
    r.1 :: createSequence r.2 rest

/-- `getNamespaceRegistrationTransaction(namespaceName, duration)`:
a sub-namespace registration when the name contains a dot, a root
registration otherwise. -/
def getNamespaceRegistrationTransaction (fac : TransactionFactory)
    (now : Nat) (namespaceName : String) (duration : Nat) :
    NamespaceRegistrationTransaction :=
  let isSub := namespaceName.contains '.'
  let parts := namespaceName.splitOn "."
  let parent := String.intercalate "." (parts.take (parts.length - 1))
  let current := parts.getLastD ""
  if isSub then
    NamespaceRegistrationTransaction.sub (Deadline.create fac.epochAdjustment now)
      current parent fac.networkType ContractConstants.DEFAULT_TRANSACTION_FEE
  else
    NamespaceRegistrationTransaction.root (Deadline.create fac.epochAdjustment now)
      namespaceName duration fac.networkType ContractConstants.DEFAULT_TRANSACTION_FEE

/-- `getMosaicDefinitionTransaction(publicAccount, divisibility,
supplyMutable, transferable, restrictable)`.  The call draws a fresh random
mosaic nonce through `MosaicNonce.createRandom()`; the draw is the explicit
`nonce` argument. -/
def getMosaicDefinitionTransaction (fac : TransactionFactory) (now : Nat)
    (nonce : Nat) (publicAccount : PublicAccount) (divisibility : Nat)
    (supplyMutable transferable restrictable : Bool) :
    MosaicDefinitionTransaction :=
  let mosId := MosaicId.createFromNonce nonce publicAccount.address
  ⟨Deadline.create fac.epochAdjustment now, nonce, mosId,
   ⟨supplyMutable, transferable, restrictable⟩, divisibility,
   ContractConstants.BLOCKS_IN_ONE_YEAR, fac.networkType,
   ContractConstants.DEFAULT_FEE_WITH_RENTAL⟩

/-- Two successive `getMosaicDefinitionTransaction` calls with identical
business parameters: the first consumes random draw `draws 0`, the second
`draws 1`. -/
def getMosaicDefinitionTransactionTwice (fac : TransactionFactory) (now : Nat)
    (draws : Nat → Nat) (publicAccount : PublicAccount) (divisibility : Nat)
    (supplyMutable transferable restrictable : Bool) :
    MosaicDefinitionTransaction × MosaicDefinitionTransaction :=
  (getMosaicDefinitionTransaction fac now (draws 0) publicAccount divisibility
     supplyMutable transferable restrictable,
   getMosaicDefinitionTransaction fac now (draws 1) publicAccount divisibility
     supplyMutable transferable restrictable)

/-- `getMosaicSupplyChangeTransaction(mosaicId, supply)`. -/
def getMosaicSupplyChangeTransaction (fac : TransactionFactory) (now : Nat)
    (mosaicId : MosaicId) (supply : Nat) : MosaicSupplyChangeTransaction :=
  ⟨Deadline.create fac.epochAdjustment now, mosaicId, true, supply,
   fac.networkType, ContractConstants.DEFAULT_TRANSACTION_FEE⟩

/-- `getMosaicAliasTransaction(namespaceName, mosaicId)`. -/
def getMosaicAliasTransaction (fac : TransactionFactory) (now : Nat)
    (namespaceName : String) (mosaicId : MosaicId) : MosaicAliasTransaction :=
  ⟨Deadline.create fac.epochAdjustment now, true, namespaceName, mosaicId,
   fac.networkType, ContractConstants.DEFAULT_TRANSACTION_FEE⟩

/-- `getTransferTransaction(recipient, mosaicId, amount, message)`. -/
def getTransferTransaction (fac : TransactionFactory) (now : Nat)
    (recipient : String) (mosaicId : AssetRef) (amount : Nat)
    (message : String) : TransferTransaction :=
  ⟨Deadline.create fac.epochAdjustment now, recipient, [⟨mosaicId, amount⟩],
   message, fac.networkType, ContractConstants.DEFAULT_TRANSACTION_FEE⟩

/-- `getHashLockTransaction(mosaic, duration, signedAggregate)`. -/
def getHashLockTransaction (fac : TransactionFactory) (now : Nat)
    (mosaic : Mosaic) (duration : Nat) (signedAggregate : SignedTransaction) :
    HashLockTransaction :=
  ⟨Deadline.create fac.epochAdjustment now, mosaic, duration,
   signedAggregate.hash, fac.networkType,
   ContractConstants.DEFAULT_TRANSACTION_FEE⟩

end TransactionFactory

/-! ## RequestAsset contract -/

/-- An inner transaction of an aggregate: a transfer together with the
public key it was attributed to by `toAggregate`. -/
structure InnerTransaction where
  transfer : TransferTransaction
  signerPublicKey : String
  deriving DecidableEq

/-- `AggregateTransaction.createBonded(deadline, transactions, networkType,
[], maxFee)`. -/
structure AggregateTransaction where
  deadline : Deadline
  innerTransactions : List InnerTransaction
  networkType : Nat
  cosignatures : List String
  maxFee : Nat
  deriving DecidableEq

namespace RequestAsset

/-- The `RequestAsset` contract's initial lock asset
(`protected lockAsset: string = 'symbol.xym'`). -/
def initialLockAsset : String := "symbol.xym"

/-- The `RequestAsset` contract's initial absolute lock amount
(`protected lockAmount: number = 10 * 1000000`). -/
def initialLockAmount : Nat := 10 * 1000000

/-- JavaScript `parseInt` restricted to the decimal strings the contract
documents for `--lock` (`Ex.: 10 symbol.xym`); non-numeric input is
abstracted to 0. -/
def parseIntDec (s : String) : Nat := (s.toNat?).getD 0

/-- Resolution of the `--lock` override in `RequestAsset.execute`: the
field defaults stand when no override is given (absent or empty input);
otherwise the input must be an amount and a mosaic separated by a space,
the amount scaled by divisibility 6. -/
def resolveLockSettings (lockInput : Option String) :
    Except String (String × Nat) :=
  match lockInput with
  | none => Except.ok (initialLockAsset, initialLockAmount)
  | some s =>
    if s.length = 0 then Except.ok (initialLockAsset, initialLockAmount)
    else
      let parts := s.splitOn " "
      if parts.length = 2 then
        Except.ok (parts.getLastD "", parseIntDec (parts.headD "") * 1000000)
      else
        Except.error "Expected an amount and mosaic in --lock, Ex.: 10 symbol.xym"

/-- `RequestAsset.executeContract(account, transactions)`: wrap the
transactions in a bonded aggregate, sign it, build the hash lock over the
lock mosaic for a duration of 1000 blocks, sign it, and hand both signed
transactions to `broadcaster.announcePartial`.  Signing is the external
`TransactionSigner` capability, passed as `signAggregate`/`signHashLock`;
the result is the built hash-lock transaction together with the
`(signedHashLock, signedPartial)` pair given to `announcePartial`. -/
def executeContract (fac : TransactionFactory) (now epochAdjustment networkType : Nat)
    (lockAsset : String) (lockAmount : Nat)
    (signAggregate : AggregateTransaction → SignedTransaction)
    (signHashLock : HashLockTransaction → SignedTransaction)
    (transactions : List InnerTransaction) :
    HashLockTransaction × SignedTransaction × SignedTransaction :=
  let aggregateTx : AggregateTransaction :=
    ⟨Deadline.create epochAdjustment now, transactions, networkType, [],
     ContractConstants.DEFAULT_AGGREGATE_FEE⟩
  let signedTransaction := signAggregate aggregateTx
  let lockFundsTransaction := fac.getHashLockTransaction now
    ⟨AssetRef.namespaceRef lockAsset, lockAmount⟩ 1000 signedTransaction
  let signedLockFundsTx := signHashLock lockFundsTransaction
  (lockFundsTransaction, signedLockFundsTx, signedTransaction)

end RequestAsset

/-! ## Helper lemmas -/

open TransactionBroadcaster

lemma checkLockBeforeBonded_skip_act (addr lh : String) (seen : Bool)
    (a : Action) (ha : ∀ h, a ≠ Action.submitAggregateBonded h)
    (tr : List Item) :
    checkLockBeforeBonded addr lh seen (Item.act a :: tr) =
    checkLockBeforeBonded addr lh seen tr := by
  cases a <;> first
    | rfl
    | exact absurd rfl (ha _)

lemma checkLockBeforeBonded_skip_replicate (addr lh : String) (seen : Bool)
    (a : Action) (ha : ∀ h, a ≠ Action.submitAggregateBonded h)
    (n : Nat) (tr : List Item) :
    checkLockBeforeBonded addr lh seen (List.replicate n (Item.act a) ++ tr) =
    checkLockBeforeBonded addr lh seen tr := by
  induction n with
  | zero => rfl
  | succ n ih =>
    rw [List.replicate_succ, List.cons_append,
      checkLockBeforeBonded_skip_act addr lh seen a ha, ih]

lemma checkLockBeforeBonded_processPartialEvents
    (addr lh bh : String) (bOk : Bool) :
    ∀ (events : List Event) (k : Nat) (seen : Bool),
    checkLockBeforeBonded addr lh seen
      (processPartialEvents addr lh bh bOk k events) = true := by
  intro events
  induction events with
  | nil => intro k seen; rfl
  | cons e rest ih =>
    intro k seen
    cases e with
    | statusError a h code =>
      by_cases hac : a = addr
      · simp [processPartialEvents, hac, checkLockBeforeBonded]
      · simp [processPartialEvents, hac, checkLockBeforeBonded, ih]
    | confirmed a h =>
      by_cases hac : a = addr
      · by_cases hl : h = lh
        · have hcond : a = addr ∧ h = lh := ⟨hac, hl⟩
          have hdec : decide (Event.confirmed a h = Event.confirmed addr lh) = true := by
            simp [hac, hl]
          simp only [processPartialEvents, if_pos hcond, checkLockBeforeBonded, hdec,
            Bool.or_true, Bool.true_and]
          cases bOk with
          | false => rfl
          | true =>
            by_cases hbk : h = bh ∧ 1 ≤ k
            · simp only [if_pos hbk, if_true]; rfl
            · simp only [if_neg hbk, if_true]
              exact ih (k + 1) true
        · have hcond : ¬(a = addr ∧ h = lh) := fun hc => hl hc.2
          have hdec : decide (Event.confirmed a h = Event.confirmed addr lh) = false := by
            simp [hl]
          by_cases hbk : a = addr ∧ h = bh ∧ 1 ≤ k
          · simp only [processPartialEvents, if_neg hcond, if_pos hbk,
              checkLockBeforeBonded, hdec, Bool.or_false]
          · simp only [processPartialEvents, if_neg hcond, if_neg hbk,
              checkLockBeforeBonded, hdec, Bool.or_false]
            exact ih k seen
      · have hcond : ¬(a = addr ∧ h = lh) := fun hc => hac hc.1
        have hbk : ¬(a = addr ∧ h = bh ∧ 1 ≤ k) := fun hc => hac hc.1
        have hdec : decide (Event.confirmed a h = Event.confirmed addr lh) = false := by
          simp; intro ha; exact absurd ha hac
        simp only [processPartialEvents, if_neg hcond, if_neg hbk,
          checkLockBeforeBonded, hdec, Bool.or_false]
        exact ih k seen
    | aggregateBondedAdded a h =>
      by_cases hab : a = addr ∧ h = bh
      · simp only [processPartialEvents, if_pos hab, checkLockBeforeBonded]
        rw [checkLockBeforeBonded_skip_replicate _ _ _ _ (by intro h'; simp)]
        exact ih k _
      · simp [processPartialEvents, hab, checkLockBeforeBonded, ih]
    | cosignatureAdded a ph =>
      by_cases hac : a = addr
      · simp only [processPartialEvents, if_pos hac, checkLockBeforeBonded]
        rw [checkLockBeforeBonded_skip_replicate _ _ _ _ (by intro h'; simp)]
        exact ih k _
      · simp [processPartialEvents, hac, checkLockBeforeBonded, ih]

lemma processPartialEvents_no_bonded_submit
    (addr lh bh : String) (bOk : Bool) :
    ∀ (events : List Event), Event.confirmed addr lh ∉ events →
    ∀ (k : Nat) (h : String),
    Item.act (Action.submitAggregateBonded h) ∉
      processPartialEvents addr lh bh bOk k events := by
  intro events
  induction events with
  | nil => intro _ k h; simp [processPartialEvents]
  | cons e rest ih =>
    intro hmem k h
    have hrest : Event.confirmed addr lh ∉ rest := fun hr => hmem (List.mem_cons_of_mem _ hr)
    have hne : e ≠ Event.confirmed addr lh := fun he => hmem (he ▸ List.mem_cons_self _ _)
    cases e with
    | statusError a h' code =>
      by_cases hac : a = addr
      · simp [processPartialEvents, hac]
      · simp [processPartialEvents, hac]
        exact ih hrest k h
    | confirmed a h' =>
      have hal : ¬(a = addr ∧ h' = lh) := by
        rintro ⟨rfl, rfl⟩; exact hne rfl
      by_cases hbk : a = addr ∧ h' = bh ∧ 1 ≤ k
      · simp only [processPartialEvents, if_neg hal, if_pos hbk, List.mem_cons]
        push_neg
        exact ⟨by simp, by simp, by simp⟩
      · simp only [processPartialEvents, if_neg hal, if_neg hbk, List.mem_cons]
        push_neg
        exact ⟨by simp, ih hrest k h⟩
    | aggregateBondedAdded a h' =>
      simp only [processPartialEvents, List.mem_cons, List.mem_append]
      push_neg
      refine ⟨by simp, ?_, ih hrest k h⟩
      intro hin
      rcases List.mem_ite_nil_right.mp hin with ⟨_, hin'⟩
      have := List.eq_of_mem_replicate hin'
      simp at this
    | cosignatureAdded a ph =>
      simp only [processPartialEvents, List.mem_cons, List.mem_append]
      push_neg
      refine ⟨by simp, ?_, ih hrest k h⟩
      intro hin
      rcases List.mem_ite_nil_right.mp hin with ⟨_, hin'⟩
      have := List.eq_of_mem_replicate hin'
      simp at this

/-- Claim C1: in every `announcePartial` run, the bonded aggregate is
never submitted before a confirmation event for the hash lock's hash has
been consumed, and in a run whose event stream never delivers that
confirmation the bonded aggregate is never submitted at all. -/
theorem announcePartial_bonded_only_after_lock_confirmation
    (addr lockHash bondedHash : String) (lockOk bondedOk : Bool)
    (events : List Event) :
    checkLockBeforeBonded addr lockHash false
      (announcePartialRun addr lockHash bondedHash lockOk bondedOk events) = true
    ∧ (Event.confirmed addr lockHash ∉ events →
       ∀ h, Item.act (Action.submitAggregateBonded h) ∉
         announcePartialRun addr lockHash bondedHash lockOk bondedOk events) := by
  constructor
  · cases lockOk with
    | false => rfl
    | true =>
      show checkLockBeforeBonded addr lockHash false
        (Item.act Action.openListener :: Item.act (Action.submitTx lockHash) ::
         Item.act (Action.subscribeStatus addr) ::
         Item.act (Action.subscribeConfirmed addr lockHash) ::
         processPartialEvents addr lockHash bondedHash bondedOk 0 events) = true
      rw [checkLockBeforeBonded_skip_act _ _ _ _ (by intro h'; simp),
        checkLockBeforeBonded_skip_act _ _ _ _ (by intro h'; simp),
        checkLockBeforeBonded_skip_act _ _ _ _ (by intro h'; simp),
        checkLockBeforeBonded_skip_act _ _ _ _ (by intro h'; simp)]
      exact checkLockBeforeBonded_processPartialEvents addr lockHash bondedHash bondedOk events 0 false
  · intro hmem h
    cases lockOk with
    | false => simp [announcePartialRun]
    | true =>
      simp only [announcePartialRun, if_true, List.mem_cons]
      push_neg
      exact ⟨by simp, by simp, by simp, by simp,
        processPartialEvents_no_bonded_submit addr lockHash bondedHash bondedOk events hmem 0 h⟩

/-- Witness for claim C1 at a concrete run: the lock fails with a status
error and its confirmation never arrives; the bonded aggregate is never
submitted. -/
theorem announcePartial_bonded_only_after_lock_confirmation_witness :
    Event.confirmed "A" "L" ∉ [Event.statusError "A" "B" "err"]
    ∧ Item.act (Action.submitAggregateBonded "B") ∉
        announcePartialRun "A" "L" "B" true true [Event.statusError "A" "B" "err"] :=
  ⟨by decide,
   (announcePartial_bonded_only_after_lock_confirmation "A" "L" "B" true true
      [Event.statusError "A" "B" "err"]).2 (by decide) "B"⟩

/-- Counterexample to claim C2 as stated: in `announce`, a status error
correlated to a hash different from the tracked one (here "OTHER" vs the
tracked "H") is not ignored — it terminates the flow with exit code 1,
because the status subscription filters by account address only. -/
theorem announce_status_error_unrelated_hash_exits_cex :
    "OTHER" ≠ "H"
    ∧ exitCodeOf (announceRun "A" "H" true [Event.statusError "A" "OTHER" "code"]) =
        some 1 := by decide

/-- Claim C2 (amended): in every Broadcaster flow a confirmation event for
an unrelated hash is ignored and never terminates the flow, but status
and error events are matched by account address only, so a status error
for the tracked account terminates the flow with exit 1 regardless of its
hash; events for a different account's address are ignored. -/
theorem broadcaster_event_correlation
    (addr txHash lockHash bondedHash : String) (bondedOk : Bool) (k : Nat)
    (a h c : String) (rest : List Event) :
    (¬(a = addr ∧ h = txHash) →
      processAnnounce addr txHash (Event.confirmed a h :: rest) =
        Item.ev (Event.confirmed a h) :: processAnnounce addr txHash rest)
    ∧ (a ≠ addr →
      processAnnounce addr txHash (Event.statusError a h c :: rest) =
        Item.ev (Event.statusError a h c) :: processAnnounce addr txHash rest)
    ∧ processAnnounce addr txHash (Event.statusError addr h c :: rest) =
        [Item.ev (Event.statusError addr h c), Item.act (Action.logError c h),
         Item.act (Action.exitWith 1)]
    ∧ (h ≠ lockHash → h ≠ bondedHash →
      processPartialEvents addr lockHash bondedHash bondedOk k
          (Event.confirmed a h :: rest) =
        Item.ev (Event.confirmed a h) ::
          processPartialEvents addr lockHash bondedHash bondedOk k rest)
    ∧ processPartialEvents addr lockHash bondedHash bondedOk k
          (Event.statusError addr h c :: rest) =
        [Item.ev (Event.statusError addr h c), Item.act (Action.logError c h),
         Item.act (Action.exitWith 1)]
    ∧ processCosignatureEvents addr (Event.confirmed a h :: rest) =
        Item.ev (Event.confirmed a h) :: processCosignatureEvents addr rest
    ∧ processCosignatureEvents addr (Event.statusError addr h c :: rest) =
        [Item.ev (Event.statusError addr h c), Item.act (Action.logError c h),
         Item.act (Action.exitWith 1)] := by
  refine ⟨?_, ?_, ?_, ?_, ?_, ?_, ?_⟩
  · intro hne; simp [processAnnounce, hne]
  · intro hne; simp [processAnnounce, hne]
  · simp [processAnnounce]
  · intro hl hb
    have h1 : ¬(a = addr ∧ h = lockHash) := fun hc => hl hc.2
    have h2 : ¬(a = addr ∧ h = bondedHash ∧ 1 ≤ k) := fun hc => hb hc.2.1
    simp [processPartialEvents, h1, h2]
  · simp [processPartialEvents]
  · simp [processCosignatureEvents]
  · simp [processCosignatureEvents]

/-- Witness for the amended claim C2 at concrete inputs: a confirmation
for hash "X" is ignored by an `announce` flow tracking hash "H" and by an
`announcePartial` flow tracking lock "L" and bonded aggregate "B". -/
theorem broadcaster_event_correlation_witness :
    processAnnounce "A" "H" [Event.confirmed "A" "X"] =
      Item.ev (Event.confirmed "A" "X") :: processAnnounce "A" "H" []
    ∧ processPartialEvents "A" "L" "B" true 0 [Event.confirmed "A" "X"] =
      Item.ev (Event.confirmed "A" "X") :: processPartialEvents "A" "L" "B" true 0 [] :=
  ⟨(broadcaster_event_correlation "A" "H" "L" "B" true 0 "A" "X" "c" []).1 (by decide),
   (broadcaster_event_correlation "A" "H" "L" "B" true 0 "A" "X" "c" []).2.2.2.1
     (by decide) (by decide)⟩

/-- Counterexample to claim C3 as stated: in a concrete `announce` run the
first listener-channel subscription (index 2 of the trace) comes after the
first submission to the node's announce endpoint (index 1), so the
account's event subscriptions are not established before the submission. -/
theorem announce_subscribes_after_submit_cex :
    ¬ subscribesBeforeFirstSubmit (announceRun "A" "H" true []) := by
  intro hcl
  have h1 : (announceRun "A" "H" true []).findIdx? isSubscribeItem = some 2 := by decide
  have h2 : (announceRun "A" "H" true []).findIdx? isSubmitItem = some 1 := by decide
  exact absurd (hcl 2 1 h1 h2) (by decide)

lemma mem_left_of_append_cons_two {x y a : Item} {tail l₁ l₂ : List Item}
    (heq : x :: y :: tail = l₁ ++ a :: l₂) (hx : a ≠ x) (hy : a ≠ y) :
    x ∈ l₁ ∧ y ∈ l₁ := by
  cases l₁ with
  | nil =>
    rw [List.nil_append] at heq
    injection heq with h1 _
    exact absurd h1.symm hx
  | cons p l₁ =>
    rw [List.cons_append] at heq
    injection heq with h1 h2
    subst h1
    cases l₁ with
    | nil =>
      rw [List.nil_append] at h2
      injection h2 with h3 _
      exact absurd h3.symm hy
    | cons q l₁ =>
      rw [List.cons_append] at h2
      injection h2 with h3 _
      subst h3
      exact ⟨List.mem_cons_self _ _, List.mem_cons_of_mem _ (List.mem_cons_self _ _)⟩

lemma subscribe_mem_after {tail l₁ l₂ : List Item} {a s : Action}
    (heq : Item.act Action.openListener :: Item.act s :: tail =
      l₁ ++ Item.act a :: l₂)
    (hsub : isSubscribeAction a = true) (hs : isSubmitAction s = true) :
    ∃ b, Item.act b ∈ l₁ ∧ isSubmitAction b = true := by
  have hx : Item.act a ≠ Item.act Action.openListener := by
    intro hcontra
    injection hcontra with h'
    subst h'
    simp [isSubscribeAction] at hsub
  have hy : Item.act a ≠ Item.act s := by
    intro hcontra
    injection hcontra with h'
    rw [← h'] at hs
    cases a <;> simp [isSubscribeAction, isSubmitAction] at hsub hs
  obtain ⟨-, hmem⟩ := mem_left_of_append_cons_two heq hx hy
  exact ⟨s, hmem, hs⟩

/-- Claim C3 (amended): in every Broadcaster flow the listener web socket
is opened strictly before the first submission to the node (the first two
trace elements are the open and the submission), but the per-channel event
subscriptions for the account's address are all established strictly after
that first submission. -/
theorem broadcaster_subscription_ordering
    (addr txHash lockHash bondedHash parentHash : String)
    (okA lockOk bondedOk okC : Bool) (events : List Event) :
    ((announceRun addr txHash okA events).take 2 =
      [Item.act Action.openListener, Item.act (Action.submitTx txHash)])
    ∧ (∀ l₁ l₂ a, announceRun addr txHash okA events = l₁ ++ Item.act a :: l₂ →
        isSubscribeAction a = true →
        ∃ b, Item.act b ∈ l₁ ∧ isSubmitAction b = true)
    ∧ ((announcePartialRun addr lockHash bondedHash lockOk bondedOk events).take 2 =
      [Item.act Action.openListener, Item.act (Action.submitTx lockHash)])
    ∧ (∀ l₁ l₂ a,
        announcePartialRun addr lockHash bondedHash lockOk bondedOk events =
          l₁ ++ Item.act a :: l₂ →
        isSubscribeAction a = true →
        ∃ b, Item.act b ∈ l₁ ∧ isSubmitAction b = true)
    ∧ ((announceCosignatureRun addr parentHash okC events).take 2 =
      [Item.act Action.openListener, Item.act (Action.submitCosignature parentHash)])
    ∧ (∀ l₁ l₂ a, announceCosignatureRun addr parentHash okC events =
          l₁ ++ Item.act a :: l₂ →
        isSubscribeAction a = true →
        ∃ b, Item.act b ∈ l₁ ∧ isSubmitAction b = true) := by
  refine ⟨rfl, ?_, rfl, ?_, rfl, ?_⟩
  · intro l₁ l₂ a heq hsub
    exact subscribe_mem_after heq hsub rfl
  · intro l₁ l₂ a heq hsub
    exact subscribe_mem_after heq hsub rfl
  · intro l₁ l₂ a heq hsub
    exact subscribe_mem_after heq hsub rfl

/-- Witness for the amended claim C3 at a concrete `announce` run: the
status-channel subscription sits after a submission already in the trace. -/
theorem broadcaster_subscription_ordering_witness :
    ∃ b, Item.act b ∈ [Item.act Action.openListener, Item.act (Action.submitTx "H")]
      ∧ isSubmitAction b = true :=
  (broadcaster_subscription_ordering "A" "H" "L" "B" "P" true true true true []).2.1
    [Item.act Action.openListener, Item.act (Action.submitTx "H")]
    [Item.act (Action.subscribeConfirmed "A" "H")]
    (Action.subscribeStatus "A") (by decide) (by decide)

lemma processPartialEvents_no_exit (addr lh bh : String) :
    ∀ (events : List Event), (∀ h c, Event.statusError addr h c ∉ events) →
    Event.confirmed addr bh ∉ events →
    ∀ (k c : Nat), Item.act (Action.exitWith c) ∉
      processPartialEvents addr lh bh true k events := by
  intro events
  induction events with
  | nil => intro _ _ k c; simp [processPartialEvents]
  | cons e rest ih =>
    intro hstat hconf k c
    have hstat' : ∀ h c', Event.statusError addr h c' ∉ rest :=
      fun h c' hm => hstat h c' (List.mem_cons_of_mem _ hm)
    have hconf' : Event.confirmed addr bh ∉ rest :=
      fun hm => hconf (List.mem_cons_of_mem _ hm)
    cases e with
    | statusError a h' code =>
      have hane : ¬(a = addr) := by
        rintro rfl
        exact hstat h' code (List.mem_cons_self _ _)
      simp only [processPartialEvents, if_neg hane, List.mem_cons]
      push_neg
      exact ⟨by simp, ih hstat' hconf' k c⟩
    | confirmed a h' =>
      have hnb : ¬(a = addr ∧ h' = bh) := by
        rintro ⟨rfl, rfl⟩
        exact hconf (List.mem_cons_self _ _)
      by_cases hal : a = addr ∧ h' = lh
      · have hinner : ¬(h' = bh ∧ 1 ≤ k) := fun hc => hnb ⟨hal.1, hc.1⟩
        simp only [processPartialEvents, if_pos hal, if_true, if_neg hinner,
          List.mem_cons]
        push_neg
        exact ⟨by simp, by simp, by simp, by simp, by simp,
          ih hstat' hconf' (k + 1) c⟩
      · have hbk : ¬(a = addr ∧ h' = bh ∧ 1 ≤ k) := fun hc => hnb ⟨hc.1, hc.2.1⟩
        simp only [processPartialEvents, if_neg hal, if_neg hbk, List.mem_cons]
        push_neg
        exact ⟨by simp, ih hstat' hconf' k c⟩
    | aggregateBondedAdded a h' =>
      simp only [processPartialEvents, List.mem_cons, List.mem_append]
      push_neg
      refine ⟨by simp, ?_, ih hstat' hconf' k c⟩
      intro hin
      rcases List.mem_ite_nil_right.mp hin with ⟨_, hin'⟩
      have := List.eq_of_mem_replicate hin'
      simp at this
    | cosignatureAdded a ph =>
      simp only [processPartialEvents, List.mem_cons, List.mem_append]
      push_neg
      refine ⟨by simp, ?_, ih hstat' hconf' k c⟩
      intro hin
      rcases List.mem_ite_nil_right.mp hin with ⟨_, hin'⟩
      have := List.eq_of_mem_replicate hin'
      simp at this

/-- Claim C4: during the `announcePartial` dispatch (with the bonded
submission succeeding), any number of "partial added" and "cosignature
added" events are informational only — each contributes a prefix of items
containing no `process.exit` and leaves the continuation unchanged — and
the flow can only terminate on a status/error event for the account or on
a confirmation event for the bonded aggregate's hash: when the event
stream contains neither, no `process.exit` action ever occurs. -/
theorem announcePartial_informational_events_do_not_terminate
    (addr lockHash bondedHash : String) (k : Nat) :
    (∀ e rest, isInformationalEvent e = true →
      ∃ pre, processPartialEvents addr lockHash bondedHash true k (e :: rest) =
        pre ++ processPartialEvents addr lockHash bondedHash true k rest
        ∧ ∀ i ∈ pre, exitActionCode i = none)
    ∧ (∀ events, (∀ h c, Event.statusError addr h c ∉ events) →
        Event.confirmed addr bondedHash ∉ events →
        ∀ c, Item.act (Action.exitWith c) ∉
          processPartialEvents addr lockHash bondedHash true k events) := by
  constructor
  · intro e rest hinfo
    cases e with
    | confirmed a h => simp [isInformationalEvent] at hinfo
    | statusError a h c => simp [isInformationalEvent] at hinfo
    | aggregateBondedAdded a h =>
      refine ⟨Item.ev (Event.aggregateBondedAdded a h) ::
        (if a = addr ∧ h = bondedHash then
          List.replicate k (Item.act Action.logPartialSuccess) else []), ?_, ?_⟩
      · simp [processPartialEvents]
      · intro i hi
        rcases List.mem_cons.mp hi with rfl | hi'
        · rfl
        · split at hi'
          · obtain rfl := List.eq_of_mem_replicate hi'
            rfl
          · simp at hi'
    | cosignatureAdded a ph =>
      refine ⟨Item.ev (Event.cosignatureAdded a ph) ::
        (if a = addr then
          List.replicate k (Item.act (Action.logCosigSuccess ph)) else []), ?_, ?_⟩
      · simp [processPartialEvents]
      · intro i hi
        rcases List.mem_cons.mp hi with rfl | hi'
        · rfl
        · split at hi'
          · obtain rfl := List.eq_of_mem_replicate hi'
            rfl
          · simp at hi'
  · intro events hstat hconf c
    exact processPartialEvents_no_exit addr lockHash bondedHash events hstat hconf k c

/-- Witness for claim C4 at concrete inputs: a cosignature-added event
contributes an exit-free prefix, and a stream made of one "partial added"
event produces no `process.exit` at all. -/
theorem announcePartial_informational_events_do_not_terminate_witness :
    (∃ pre, processPartialEvents "A" "L" "B" true 0 [Event.cosignatureAdded "A" "s"] =
      pre ++ processPartialEvents "A" "L" "B" true 0 []
      ∧ ∀ i ∈ pre, exitActionCode i = none)
    ∧ Item.act (Action.exitWith 0) ∉
        processPartialEvents "A" "L" "B" true 0 [Event.aggregateBondedAdded "A" "B"] :=
  ⟨(announcePartial_informational_events_do_not_terminate "A" "L" "B" 0).1
     (Event.cosignatureAdded "A" "s") [] (by decide),
   (announcePartial_informational_events_do_not_terminate "A" "L" "B" 0).2
     [Event.aggregateBondedAdded "A" "B"] (by intro h c; simp) (by decide) 0⟩

lemma exitJustification_skip_act (success failure subFail : Event → Bool)
    (le : Option Event) (a : Action) (ha : ∀ c, a ≠ Action.exitWith c)
    (tr : List Item) :
    exitJustification success failure subFail le (Item.act a :: tr) =
    exitJustification success failure subFail le tr := by
  cases a <;> first
    | rfl
    | exact absurd rfl (ha _)

lemma exitJustification_skip_replicate (success failure subFail : Event → Bool)
    (le : Option Event) (a : Action) (ha : ∀ c, a ≠ Action.exitWith c)
    (n : Nat) (tr : List Item) :
    exitJustification success failure subFail le
      (List.replicate n (Item.act a) ++ tr) =
    exitJustification success failure subFail le tr := by
  induction n with
  | zero => rfl
  | succ n ih =>
    rw [List.replicate_succ, List.cons_append,
      exitJustification_skip_act success failure subFail le a ha, ih]

lemma exitJustification_processAnnounce (addr txHash : String) :
    ∀ (events : List Event) (le : Option Event),
    exitJustification (announceSuccessEvent addr txHash)
      (statusErrorEventFor addr) noEvent le
      (processAnnounce addr txHash events) = true := by
  intro events
  induction events with
  | nil => intro le; rfl
  | cons e rest ih =>
    intro le
    cases e with
    | statusError a h code =>
      by_cases hac : a = addr
      · simp [processAnnounce, hac, exitJustification, statusErrorEventFor]
      · simp [processAnnounce, hac, exitJustification, ih]
    | confirmed a h =>
      by_cases hct : a = addr ∧ h = txHash
      · simp [processAnnounce, hct, exitJustification, announceSuccessEvent,
          hct.1, hct.2]
      · simp [processAnnounce, hct, exitJustification, ih]
    | aggregateBondedAdded a h =>
      simp [processAnnounce, exitJustification, ih]
    | cosignatureAdded a ph =>
      simp [processAnnounce, exitJustification, ih]

lemma exitJustification_processPartialEvents (addr lh bh : String)
    (bOk : Bool) :
    ∀ (events : List Event) (k : Nat) (le : Option Event),
    exitJustification (announceSuccessEvent addr bh)
      (statusErrorEventFor addr)
      (fun e => !bOk && lockConfEventFor addr lh e) le
      (processPartialEvents addr lh bh bOk k events) = true := by
  intro events
  induction events with
  | nil => intro k le; rfl
  | cons e rest ih =>
    intro k le
    cases e with
    | statusError a h code =>
      by_cases hac : a = addr
      · simp [processPartialEvents, hac, exitJustification, statusErrorEventFor]
      · simp [processPartialEvents, hac, exitJustification, ih]
    | confirmed a h =>
      by_cases hal : a = addr ∧ h = lh
      · obtain ⟨ha, hl⟩ := hal
        simp only [processPartialEvents, if_pos (And.intro ha hl),
          exitJustification]
        cases bOk with
        | false =>
          simp [exitJustification, statusErrorEventFor, lockConfEventFor,
            ha, hl]
        | true =>
          simp only [if_true]
          by_cases hbk : h = bh ∧ 1 ≤ k
          · simp [hbk, exitJustification, announceSuccessEvent, ha, hbk.1]
          · simp only [exitJustification, if_neg hbk]
            exact ih (k + 1) _
      · by_cases hbk : a = addr ∧ h = bh ∧ 1 ≤ k
        · simp only [processPartialEvents, if_neg hal, if_pos hbk,
            exitJustification]
          simp [exitJustification, announceSuccessEvent, hbk.1, hbk.2.1]
        · simp only [processPartialEvents, if_neg hal, if_neg hbk,
            exitJustification]
          exact ih k _
    | aggregateBondedAdded a h =>
      simp only [processPartialEvents, exitJustification]
      split
      · rw [exitJustification_skip_replicate _ _ _ _ _ (by intro c'; simp)]
        exact ih k _
      · rw [List.nil_append]
        exact ih k _
    | cosignatureAdded a ph =>
      simp only [processPartialEvents, exitJustification]
      split
      · rw [exitJustification_skip_replicate _ _ _ _ _ (by intro c'; simp)]
        exact ih k _
      · rw [List.nil_append]
        exact ih k _

lemma exitJustification_processCosignatureEvents (addr : String) :
    ∀ (events : List Event) (le : Option Event),
    exitJustification (cosigAddedEventFor addr)
      (statusErrorEventFor addr) noEvent le
      (processCosignatureEvents addr events) = true := by
  intro events
  induction events with
  | nil => intro le; rfl
  | cons e rest ih =>
    intro le
    cases e with
    | statusError a h code =>
      by_cases hac : a = addr
      · simp [processCosignatureEvents, hac, exitJustification,
          statusErrorEventFor]
      · simp [processCosignatureEvents, hac, exitJustification, ih]
    | cosignatureAdded a ph =>
      by_cases hac : a = addr
      · simp [processCosignatureEvents, hac, exitJustification,
          cosigAddedEventFor]
      · simp [processCosignatureEvents, hac, exitJustification, ih]
    | confirmed a h =>
      simp [processCosignatureEvents, exitJustification, ih]
    | aggregateBondedAdded a h =>
      simp [processCosignatureEvents, exitJustification, ih]

/-- Claim C5: in every run of the three Broadcaster operations each
`process.exit` is justified by its trigger — exit code 0 occurs only right
after a success event was consumed (the tracked confirmation for
`announce`/`announcePartial`, a cosignature-added event for
`announceCosignature`), and every failure trigger (a status/error event
for the account, a failing initial submission with no event consumed, or a
failing bonded submission right after the lock's confirmation) exits with
the non-zero code 1. -/
theorem broadcaster_exit_codes
    (addr txHash lockHash bondedHash parentHash : String)
    (okA lockOk bondedOk okC : Bool) (events : List Event) :
    exitJustification (announceSuccessEvent addr txHash)
      (statusErrorEventFor addr) noEvent none
      (announceRun addr txHash okA events) = true
    ∧ exitJustification (announceSuccessEvent addr bondedHash)
      (statusErrorEventFor addr)
      (fun e => !bondedOk && lockConfEventFor addr lockHash e) none
      (announcePartialRun addr lockHash bondedHash lockOk bondedOk events) = true
    ∧ exitJustification (cosigAddedEventFor addr)
      (statusErrorEventFor addr) noEvent none
      (announceCosignatureRun addr parentHash okC events) = true := by
  refine ⟨?_, ?_, ?_⟩
  · cases okA with
    | false => rfl
    | true =>
      show exitJustification _ _ _ none
        (Item.act Action.openListener :: Item.act (Action.submitTx txHash) ::
         Item.act (Action.subscribeStatus addr) ::
         Item.act (Action.subscribeConfirmed addr txHash) ::
         processAnnounce addr txHash events) = true
      rw [exitJustification_skip_act _ _ _ _ _ (by intro c'; simp),
        exitJustification_skip_act _ _ _ _ _ (by intro c'; simp),
        exitJustification_skip_act _ _ _ _ _ (by intro c'; simp),
        exitJustification_skip_act _ _ _ _ _ (by intro c'; simp)]
      exact exitJustification_processAnnounce addr txHash events none
  · cases lockOk with
    | false => rfl
    | true =>
      show exitJustification _ _ _ none
        (Item.act Action.openListener :: Item.act (Action.submitTx lockHash) ::
         Item.act (Action.subscribeStatus addr) ::
         Item.act (Action.subscribeConfirmed addr lockHash) ::
         processPartialEvents addr lockHash bondedHash bondedOk 0 events) = true
      rw [exitJustification_skip_act _ _ _ _ _ (by intro c'; simp),
        exitJustification_skip_act _ _ _ _ _ (by intro c'; simp),
        exitJustification_skip_act _ _ _ _ _ (by intro c'; simp),
        exitJustification_skip_act _ _ _ _ _ (by intro c'; simp)]
      exact exitJustification_processPartialEvents addr lockHash bondedHash
        bondedOk events 0 none
  · cases okC with
    | false => rfl
    | true =>
      show exitJustification _ _ _ none
        (Item.act Action.openListener ::
         Item.act (Action.submitCosignature parentHash) ::
         Item.act (Action.subscribeStatus addr) ::
         Item.act (Action.subscribeCosignatureAdded addr) ::
         processCosignatureEvents addr events) = true
      rw [exitJustification_skip_act _ _ _ _ _ (by intro c'; simp),
        exitJustification_skip_act _ _ _ _ _ (by intro c'; simp),
        exitJustification_skip_act _ _ _ _ _ (by intro c'; simp),
        exitJustification_skip_act _ _ _ _ _ (by intro c'; simp)]
      exact exitJustification_processCosignatureEvents addr events none

lemma submitBondedAborts_skip_act (a : Action)
    (ha : ∀ h, a ≠ Action.submitAggregateBonded h) (tr : List Item) :
    submitBondedAborts (Item.act a :: tr) = submitBondedAborts tr := by
  cases a <;> first
    | rfl
    | exact absurd rfl (ha _)

lemma submitBondedAborts_skip_replicate (a : Action)
    (ha : ∀ h, a ≠ Action.submitAggregateBonded h) (n : Nat) (tr : List Item) :
    submitBondedAborts (List.replicate n (Item.act a) ++ tr) =
    submitBondedAborts tr := by
  induction n with
  | zero => rfl
  | succ n ih =>
    rw [List.replicate_succ, List.cons_append, submitBondedAborts_skip_act a ha, ih]

lemma submitBondedAborts_processPartialEvents (addr lh bh : String) :
    ∀ (events : List Event) (k : Nat),
    submitBondedAborts (processPartialEvents addr lh bh false k events) = true := by
  intro events
  induction events with
  | nil => intro k; rfl
  | cons e rest ih =>
    intro k
    cases e with
    | statusError a h code =>
      by_cases hac : a = addr
      · simp [processPartialEvents, hac, submitBondedAborts]
      · simp [processPartialEvents, hac, submitBondedAborts, ih]
    | confirmed a h =>
      by_cases hal : a = addr ∧ h = lh
      · simp [processPartialEvents, hal, submitBondedAborts]
      · by_cases hbk : a = addr ∧ h = bh ∧ 1 ≤ k
        · simp only [processPartialEvents, if_neg hal, if_pos hbk,
            submitBondedAborts]
        · simp only [processPartialEvents, if_neg hal, if_neg hbk,
            submitBondedAborts]
          exact ih k
    | aggregateBondedAdded a h =>
      simp only [processPartialEvents, submitBondedAborts]
      split
      · rw [submitBondedAborts_skip_replicate _ (by intro h'; simp)]
        exact ih k
      · rw [List.nil_append]
        exact ih k
    | cosignatureAdded a ph =>
      simp only [processPartialEvents, submitBondedAborts]
      split
      · rw [submitBondedAborts_skip_replicate _ (by intro h'; simp)]
        exact ih k
      · rw [List.nil_append]
        exact ih k

/-- Claim C6: when a submission to the node fails, each Broadcaster
operation reports the error and aborts at once with exit code 1, without
retrying the submission: a failing initial submission makes the whole run
exactly open–submit–report–exit, and a failing bonded-aggregate
submission is followed by exactly the error report and `process.exit(1)`,
ending the trace. -/
theorem broadcaster_submission_failure_aborts
    (addr txHash lockHash bondedHash parentHash : String)
    (lockOk bondedOk : Bool) (events : List Event) :
    announceRun addr txHash false events =
      [Item.act Action.openListener, Item.act (Action.submitTx txHash),
       Item.act Action.logContractError, Item.act (Action.exitWith 1)]
    ∧ announcePartialRun addr lockHash bondedHash false bondedOk events =
      [Item.act Action.openListener, Item.act (Action.submitTx lockHash),
       Item.act Action.logContractError, Item.act (Action.exitWith 1)]
    ∧ announceCosignatureRun addr parentHash false events =
      [Item.act Action.openListener, Item.act (Action.submitCosignature parentHash),
       Item.act Action.logContractError, Item.act (Action.exitWith 1)]
    ∧ submitBondedAborts
        (announcePartialRun addr lockHash bondedHash lockOk false events) = true := by
  refine ⟨rfl, rfl, rfl, ?_⟩
  cases lockOk with
  | false => rfl
  | true =>
    show submitBondedAborts
      (Item.act Action.openListener :: Item.act (Action.submitTx lockHash) ::
       Item.act (Action.subscribeStatus addr) ::
       Item.act (Action.subscribeConfirmed addr lockHash) ::
       processPartialEvents addr lockHash bondedHash false 0 events) = true
    rw [submitBondedAborts_skip_act _ (by intro h'; simp),
      submitBondedAborts_skip_act _ (by intro h'; simp),
      submitBondedAborts_skip_act _ (by intro h'; simp),
      submitBondedAborts_skip_act _ (by intro h'; simp)]
    exact submitBondedAborts_processPartialEvents addr lockHash bondedHash events 0

lemma processCosignatureEvents_no_submit (addr : String) :
    ∀ (events : List Event) (i : Item),
    i ∈ processCosignatureEvents addr events → isSubmitItem i = false := by
  intro events
  induction events with
  | nil => intro i hi; simp [processCosignatureEvents] at hi
  | cons e rest ih =>
    intro i hi
    cases e with
    | statusError a h code =>
      by_cases hac : a = addr
      · simp only [processCosignatureEvents, if_pos hac, List.mem_cons] at hi
        rcases hi with rfl | rfl | rfl | hi'
        · rfl
        · rfl
        · rfl
        · simp at hi'
      · simp only [processCosignatureEvents, if_neg hac, List.mem_cons] at hi
        rcases hi with rfl | hi'
        · rfl
        · exact ih i hi'
    | cosignatureAdded a ph =>
      by_cases hac : a = addr
      · simp only [processCosignatureEvents, if_pos hac, List.mem_cons] at hi
        rcases hi with rfl | rfl | rfl | rfl | hi'
        · rfl
        · rfl
        · rfl
        · rfl
        · simp at hi'
      · simp only [processCosignatureEvents, if_neg hac, List.mem_cons] at hi
        rcases hi with rfl | hi'
        · rfl
        · exact ih i hi'
    | confirmed a h =>
      simp only [processCosignatureEvents, List.mem_cons] at hi
      rcases hi with rfl | hi'
      · rfl
      · exact ih i hi'
    | aggregateBondedAdded a h =>
      simp only [processCosignatureEvents, List.mem_cons] at hi
      rcases hi with rfl | hi'
      · rfl
      · exact ih i hi'

lemma exitCodeOf_processCosignatureEvents (addr : String) :
    ∀ (events : List Event),
    exitCodeOf (processCosignatureEvents addr events) =
      Option.map (fun e => match e with
        | Event.cosignatureAdded _ _ => 0
        | _ => 1)
        (events.find? (fun e => statusErrorEventFor addr e || cosigAddedEventFor addr e)) := by
  intro events
  induction events with
  | nil => rfl
  | cons e rest ih =>
    cases e with
    | statusError a h code =>
      by_cases hac : a = addr
      · rw [List.find?_cons_of_pos _ (by simp [statusErrorEventFor, hac])]
        simp [processCosignatureEvents, hac, exitCodeOf, exitActionCode,
          List.findSome?_cons]
      · rw [List.find?_cons_of_neg _
          (by simp [statusErrorEventFor, cosigAddedEventFor, hac])]
        simp only [processCosignatureEvents, if_neg hac]
        rw [← ih]
        simp [exitCodeOf, List.findSome?_cons, exitActionCode]
    | cosignatureAdded a ph =>
      by_cases hac : a = addr
      · rw [List.find?_cons_of_pos _ (by simp [cosigAddedEventFor, hac])]
        simp [processCosignatureEvents, hac, exitCodeOf, exitActionCode,
          List.findSome?_cons]
      · rw [List.find?_cons_of_neg _
          (by simp [statusErrorEventFor, cosigAddedEventFor, hac])]
        simp only [processCosignatureEvents, if_neg hac]
        rw [← ih]
        simp [exitCodeOf, List.findSome?_cons, exitActionCode]
    | confirmed a h =>
      rw [List.find?_cons_of_neg _
        (by simp [statusErrorEventFor, cosigAddedEventFor])]
      simp only [processCosignatureEvents]
      rw [← ih]
      simp [exitCodeOf, List.findSome?_cons, exitActionCode]
    | aggregateBondedAdded a h =>
      rw [List.find?_cons_of_neg _
        (by simp [statusErrorEventFor, cosigAddedEventFor])]
      simp only [processCosignatureEvents]
      rw [← ih]
      simp [exitCodeOf, List.findSome?_cons, exitActionCode]

/-- Claim C7: `announceCosignature` submits the cosignature and never
announces any other transaction (no plain and no bonded-aggregate
submission, in particular no hash lock), and its exit code is decided by
the first relevant event for the account: 0 on a cosignature-added event,
1 on a status/error event, none when neither ever arrives. -/
theorem announceCosignature_flow (addr parentHash : String)
    (events : List Event) :
    (∀ h, Item.act (Action.submitTx h) ∉
      announceCosignatureRun addr parentHash true events)
    ∧ (∀ h, Item.act (Action.submitAggregateBonded h) ∉
      announceCosignatureRun addr parentHash true events)
    ∧ Item.act (Action.submitCosignature parentHash) ∈
      announceCosignatureRun addr parentHash true events
    ∧ exitCodeOf (announceCosignatureRun addr parentHash true events) =
      Option.map (fun e => match e with
        | Event.cosignatureAdded _ _ => 0
        | _ => 1)
        (events.find? (fun e => statusErrorEventFor addr e || cosigAddedEventFor addr e)) := by
  refine ⟨?_, ?_, ?_, ?_⟩
  · intro h hmem
    simp only [announceCosignatureRun, if_true, List.mem_cons] at hmem
    rcases hmem with h' | h' | h' | h' | h'
    · exact absurd h' (by simp)
    · exact absurd h' (by simp)
    · exact absurd h' (by simp)
    · exact absurd h' (by simp)
    · have := processCosignatureEvents_no_submit addr events _ h'
      simp [isSubmitItem, isSubmitAction] at this
  · intro h hmem
    simp only [announceCosignatureRun, if_true, List.mem_cons] at hmem
    rcases hmem with h' | h' | h' | h' | h'
    · exact absurd h' (by simp)
    · exact absurd h' (by simp)
    · exact absurd h' (by simp)
    · exact absurd h' (by simp)
    · have := processCosignatureEvents_no_submit addr events _ h'
      simp [isSubmitItem, isSubmitAction] at this
  · simp [announceCosignatureRun]
  · show exitCodeOf
      (Item.act Action.openListener ::
       Item.act (Action.submitCosignature parentHash) ::
       Item.act (Action.subscribeStatus addr) ::
       Item.act (Action.subscribeCosignatureAdded addr) ::
       processCosignatureEvents addr events) = _
    rw [← exitCodeOf_processCosignatureEvents addr events]
    simp [exitCodeOf, List.findSome?_cons, exitActionCode]

/-- Two successive mosaic-definition builds with identical business
parameters (same public account, divisibility 6, all flags set), in a run
whose random nonce draws are 0 and then 1. -/
def mosaicDefinitionTwiceSample :
    MosaicDefinitionTransaction × MosaicDefinitionTransaction :=
  TransactionFactory.getMosaicDefinitionTransactionTwice
    ⟨ContractConstants.DEFAULT_NODE_URL, 152, 1615853185⟩ 0 (fun i => i)
    ⟨"PUB", "ADDR"⟩ 6 true true true

/-- Counterexample to claim C8 as stated: two calls to
`getMosaicDefinitionTransaction` with identical `publicAccount`,
`divisibility` and flags draw distinct random nonces (here 0 and 1) and
yield different mosaic nonces, different mosaic ids, and different
transactions. -/
theorem getMosaicDefinitionTransaction_not_deterministic_cex :
    mosaicDefinitionTwiceSample.1.nonce ≠ mosaicDefinitionTwiceSample.2.nonce
    ∧ mosaicDefinitionTwiceSample.1.mosaicId ≠ mosaicDefinitionTwiceSample.2.mosaicId
    ∧ mosaicDefinitionTwiceSample.1 ≠ mosaicDefinitionTwiceSample.2 := by
  decide

/-- Claim C8 (amended): every builder of the `TransactionFactory` is a
pure function of its business parameters, the factory's network type and
epoch adjustment, and the invocation time — in particular independent of
the factory's `endpointUrl` — and `getMosaicDefinitionTransaction` is
additionally a function of the randomly drawn mosaic nonce, so two calls
agree whenever they also draw the same nonce (but need not otherwise). -/
theorem transactionFactory_builders_deterministic
    (f1 f2 : TransactionFactory)
    (hnt : f1.networkType = f2.networkType)
    (hep : f1.epochAdjustment = f2.epochAdjustment)
    (now nonce duration amount supply divisibility : Nat)
    (pa : PublicAccount) (name recipient message : String)
    (mid : MosaicId) (aref : AssetRef) (sm t r : Bool)
    (signedAgg : SignedTransaction) :
    f1.getNamespaceRegistrationTransaction now name duration =
      f2.getNamespaceRegistrationTransaction now name duration
    ∧ f1.getMosaicDefinitionTransaction now nonce pa divisibility sm t r =
      f2.getMosaicDefinitionTransaction now nonce pa divisibility sm t r
    ∧ f1.getMosaicSupplyChangeTransaction now mid supply =
      f2.getMosaicSupplyChangeTransaction now mid supply
    ∧ f1.getMosaicAliasTransaction now name mid =
      f2.getMosaicAliasTransaction now name mid
    ∧ f1.getTransferTransaction now recipient aref amount message =
      f2.getTransferTransaction now recipient aref amount message
    ∧ f1.getHashLockTransaction now ⟨aref, amount⟩ duration signedAgg =
      f2.getHashLockTransaction now ⟨aref, amount⟩ duration signedAgg := by
  obtain ⟨u1, n1, e1⟩ := f1
  obtain ⟨u2, n2, e2⟩ := f2
  simp only at hnt hep
  subst hnt
  subst hep
  exact ⟨rfl, rfl, rfl, rfl, rfl, rfl⟩

/-- Witness for the amended claim C8: two factories differing only in
their endpoint URL build the same transfer transaction. -/
theorem transactionFactory_builders_deterministic_witness :
    TransactionFactory.getTransferTransaction ⟨"http://node-a", 152, 1615853185⟩
      7 "RECIPIENT" (AssetRef.namespaceRef "symbol.xym") 10 "msg"
    = TransactionFactory.getTransferTransaction ⟨"http://node-b", 152, 1615853185⟩
      7 "RECIPIENT" (AssetRef.namespaceRef "symbol.xym") 10 "msg" :=
  (transactionFactory_builders_deterministic
    ⟨"http://node-a", 152, 1615853185⟩ ⟨"http://node-b", 152, 1615853185⟩
    rfl rfl 7 0 100 10 500 6 ⟨"P", "A"⟩ "name" "RECIPIENT" "msg"
    (MosaicId.fromHex "519FC24B9223E0B4") (AssetRef.namespaceRef "symbol.xym")
    true true true ⟨"pay", "hash"⟩).2.2.2.2.1

/-- Claim C9: absent a `--lock` override (input missing or empty), the
`RequestAsset` lock settings resolve to the hardcoded defaults, and the
hash-lock transaction handed to `announcePartial` deposits exactly
10000000 absolute units of the namespace mosaic `symbol.xym` for a
duration of 1000 blocks; the signed hash lock passed to the broadcaster is
the signature of exactly that transaction. -/
theorem requestAsset_default_lock :
    RequestAsset.resolveLockSettings none = Except.ok ("symbol.xym", 10000000)
    ∧ RequestAsset.resolveLockSettings (some "") =
        Except.ok ("symbol.xym", 10000000)
    ∧ ∀ (fac : TransactionFactory) (now epochAdjustment networkType : Nat)
        (signAggregate : AggregateTransaction → SignedTransaction)
        (signHashLock : HashLockTransaction → SignedTransaction)
        (txs : List InnerTransaction),
        (RequestAsset.executeContract fac now epochAdjustment networkType
          RequestAsset.initialLockAsset RequestAsset.initialLockAmount
          signAggregate signHashLock txs).1.mosaic =
            ⟨AssetRef.namespaceRef "symbol.xym", 10000000⟩
        ∧ (RequestAsset.executeContract fac now epochAdjustment networkType
            RequestAsset.initialLockAsset RequestAsset.initialLockAmount
            signAggregate signHashLock txs).1.duration = 1000
        ∧ (RequestAsset.executeContract fac now epochAdjustment networkType
            RequestAsset.initialLockAsset RequestAsset.initialLockAmount
            signAggregate signHashLock txs).2.1 =
          signHashLock (RequestAsset.executeContract fac now epochAdjustment
            networkType RequestAsset.initialLockAsset
            RequestAsset.initialLockAmount signAggregate signHashLock txs).1 := by
  refine ⟨rfl, rfl, ?_⟩
  intro fac now epochAdjustment networkType signAggregate signHashLock txs
  exact ⟨rfl, rfl, rfl⟩

lemma createSequence_some (fac : TransactionFactory) :
    ∀ (calls : List (String × Nat)),
    TransactionFactory.createSequence (some fac) calls =
      List.replicate calls.length fac := by
  intro calls
  induction calls with
  | nil => rfl
  | cons c rest ih =>
    cases c with
    | mk u n =>
      simp [TransactionFactory.createSequence, TransactionFactory.create, ih,
        List.replicate_succ]

/-- Claim C10: `TransactionFactory.create` constructs an instance only
when the singleton slot is empty (fixing the endpoint and network given on
that first call, with the default epoch adjustment), returns the stored
instance unchanged on every later call whatever the arguments, and hence
every call of a run returns the instance configured by the first call. -/
theorem transactionFactory_create_singleton :
    (∀ u n, TransactionFactory.create none u n =
      (⟨u, n, 1615853185⟩, some ⟨u, n, 1615853185⟩))
    ∧ (∀ fac u n, TransactionFactory.create (some fac) u n = (fac, some fac))
    ∧ (∀ u n rest fac',
        fac' ∈ TransactionFactory.createSequence none ((u, n) :: rest) →
        fac' = ⟨u, n, 1615853185⟩) := by
  refine ⟨fun u n => rfl, fun fac u n => rfl, ?_⟩
  intro u n rest fac' hmem
  simp only [TransactionFactory.createSequence, TransactionFactory.create] at hmem
  rw [createSequence_some] at hmem
  rcases List.mem_cons.mp hmem with rfl | h'
  · rfl
  · exact List.eq_of_mem_replicate h'

/-- Witness for claim C10: in a run with two differently configured
`create` calls, the second call still returns the instance configured by
the first call. -/
theorem transactionFactory_create_singleton_witness :
    (TransactionFactory.createSequence none [("u1", 152), ("u2", 104)]).getD 1
        ⟨"", 0, 0⟩ = ⟨"u1", 152, 1615853185⟩ :=
  transactionFactory_create_singleton.2.2 "u1" 152 [("u2", 104)] _ (by decide)
